import Mathlib

/-!
# Verification of the user-manager-api query/pagination/registration core

Shallow embedding of the Go sources of `frtasoniero/user-manager-api`:

* `internal/core/domain/user.go`        — `User`, `Profile`, `Address`, `NewUser`
* `internal/core/usecase/user_usecase.go` (and the use-case file containing
  `GetUserByID` / `DeleteUser`)          — `Register`, `GetUserByID`, `DeleteUser`
* `internal/repository/user_repository.go` — `setDefaultOptions`,
  `buildSearchFilter`, `buildProjection`, `buildSortOptions`, `mapSortField`,
  `buildFindOptions`, `calculateTotalPages`, `GetUserByEmail`, `GetUserByID`,
  `CreateUser`, `DeleteUser`
* `internal/adapters/handler/http/user_handler.go` — query-parameter parsing
  (`page`, `page_size`, `sort`, `order`, `search`, `fields`)

Go strings are Lean `String`s; Go `int`/`int64` are Lean `Int` (the claims under
study only touch values far below 2^63, where Go machine arithmetic and `Int`
agree; Go `/` on `int` is truncated division, embedded as `Int.tdiv`). The
MongoDB collection is embedded as a list of documents together with the unique
index on `email` declared in `scripts/mongo-init.js`; `bson.M` values are
embedded as association lists with map (last-write-wins) insertion.
-/

namespace UserManager

/-! ## Go string primitives -/

/-- `strings.ToLower` restricted to ASCII (all emails and search terms in the
claims are ASCII; MongoDB's `i` regex option is likewise ASCII-insensitive
without special collation). -/
def goToLower (s : String) : String := ⟨s.data.map Char.toLower⟩

/-- Characters trimmed by `strings.TrimSpace`. -/
def isSpaceChar (c : Char) : Bool := c.isWhitespace

/-- Trim leading and trailing whitespace from a character list. -/
def trimCharList (l : List Char) : List Char :=
  ((l.dropWhile isSpaceChar).reverse.dropWhile isSpaceChar).reverse

/-- `strings.TrimSpace`. -/
def goTrimSpace (s : String) : String := ⟨trimCharList s.data⟩

/-- Helper for `goSplitComma`: accumulate the current (reversed) segment. -/
def splitCommaAux : List Char → List Char → List (List Char)
  | [], acc => [acc.reverse]
  | c :: rest, acc =>
      if c = ',' then acc.reverse :: splitCommaAux rest []
      else splitCommaAux rest (c :: acc)

/-- `strings.Split(s, ",")`. -/
def goSplitComma (s : String) : List String :=
  (splitCommaAux s.data []).map fun l => ⟨l⟩

/-- Decimal digit accumulation for `strconv.Atoi`; fails on any non-digit. -/
def readDigits : List Char → Nat → Option Nat
  | [], acc => some acc
  | c :: rest, acc =>
      if '0' ≤ c ∧ c ≤ '9' then
        readDigits rest (acc * 10 + (c.toNat - '0'.toNat))
      else none

/-- Digits of a non-empty all-digit list, else failure. -/
def parseDigitRun (l : List Char) : Option Nat :=
  match l with
  | [] => none
  | _ :: _ => readDigits l 0

/-- `strconv.Atoi` (= `strconv.ParseInt(s, 10, 64)`): optional sign, at least
one digit, every character a digit, value within the `int64` range. -/
def goAtoi (s : String) : Option Int :=
  match s.data with
  | '+' :: rest =>
      (parseDigitRun rest).bind fun n =>
        if n ≤ 2 ^ 63 - 1 then some (n : Int) else none
  | '-' :: rest =>
      (parseDigitRun rest).bind fun n =>
        if n ≤ 2 ^ 63 then some (-(n : Int)) else none
  | l =>
      (parseDigitRun l).bind fun n =>
        if n ≤ 2 ^ 63 - 1 then some (n : Int) else none

/-! ## Case-insensitive substring matching

`$regex` with a metacharacter-free pattern and `$options: "i"` matches a
document field iff the pattern occurs in the field value up to ASCII case.
`leadsWith` tests whether the first list opens the second; `hasSub` tests
occurrence at any position. -/

/-- Does `l₁` occur at the very front of `l₂`? -/
def leadsWith : List Char → List Char → Bool
  | [], _ => true
  | _ :: _, [] => false
  | a :: l₁, b :: l₂ => a = b && leadsWith l₁ l₂

/-- Does `needle` occur contiguously anywhere in the haystack? -/
def hasSub (needle : List Char) : List Char → Bool
  | [] => leadsWith needle []
  | b :: l => leadsWith needle (b :: l) || hasSub needle l

/-- Case-insensitive (ASCII) substring occurrence of `pat` in `s`. -/
def ciContains (pat s : String) : Bool :=
  hasSub (goToLower pat).data (goToLower s).data

/-! ## Domain model (`internal/core/domain/user.go`) -/

/-- `domain.Address`. -/
structure Address where
  street : String
  city : String
  state : String
  country : String
  zip_code : String
deriving DecidableEq

/-- `domain.Profile`. -/
structure Profile where
  first_name : String
  last_name : String
  address : Address
  phone : String
  birthdate : String
  nin : String
deriving DecidableEq

/-- `domain.User`. Timestamps (`time.Time`) are embedded as `Nat` instants;
`id` is the externally generated UUID string stored under `_id`. -/
structure User where
  id : String
  email : String
  passwordHash : String
  profile : Profile
  createdAt : Nat
  updatedAt : Nat
deriving DecidableEq

/-- `domain.ErrInvalidEmail` is the only domain error. -/
inductive DomainError
  | invalidEmail
deriving DecidableEq

/-- `domain.NewUser`. The generated UUID and the current time are threaded in
as explicit arguments `genID` and `now` (in Go they come from `uuid.New()` and
`time.Now()`). -/
def NewUser (genID : String) (now : Nat) (email passwordHash : String)
    (profile : Profile) : Except DomainError User :=
  let e := goTrimSpace (goToLower email)
  if (e.data.contains '@') then
    Except.ok { id := genID, email := e, passwordHash := passwordHash,
                profile := profile, createdAt := now, updatedAt := now }
  else
    Except.error DomainError.invalidEmail

/-- `security.HashPassword` is an external bcrypt call; embedded as a pure
tagging function (its output content is irrelevant to every claim, only that
it is invoked on the way to the insert). -/
def hashPassword (password : String) : String := "bcrypt$" ++ password

/-! ## Store model

The MongoDB `users` collection, embedded as the list of stored documents.
`scripts/mongo-init.js` creates a unique index on `email`, so `InsertOne`
fails with a duplicate-key error when a document with the same `email` is
already stored. `failLookup` injects a connectivity failure into the
`FindOne`-based lookups (`GetUserByEmail` / `GetUserByID`), to expose how the
callers treat a store error from those reads. -/

/-- Store-layer errors observable through the repository. -/
inductive StoreError
  | duplicateKey
  | connection
deriving DecidableEq

/-- The MongoDB `users` collection plus a lookup fault-injection flag. -/
structure Store where
  docs : List User
  failLookup : Bool
deriving DecidableEq

/-! ## Repository layer (`internal/repository/user_repository.go`) -/

/-- `UserRepository.GetUserByEmail`: `FindOne` on `{email: email}` — an exact
(case-sensitive) match on the raw argument; `mongo.ErrNoDocuments` is mapped
to `(nil, nil)`. The pair mirrors Go's two return values `(*User, error)`. -/
def repoGetUserByEmail (st : Store) (email : String) :
    Option User × Option StoreError :=
  if st.failLookup then (none, some StoreError.connection)
  else (st.docs.find? (fun u => u.email == email), none)

/-- `UserRepository.GetUserByID`: `FindOne` on `{_id: id}`;
`mongo.ErrNoDocuments` is mapped to `(nil, nil)`. -/
def repoGetUserByID (st : Store) (id : String) :
    Option User × Option StoreError :=
  if st.failLookup then (none, some StoreError.connection)
  else (st.docs.find? (fun u => u.id == id), none)

/-- `UserRepository.CreateUser`: `InsertOne`; the unique index on `email`
(created by `scripts/mongo-init.js`) rejects a duplicate email. -/
def repoCreateUser (st : Store) (u : User) : Store × Option StoreError :=
  if st.docs.any (fun v => v.email == u.email) then
    (st, some StoreError.duplicateKey)
  else
    ({ st with docs := st.docs ++ [u] }, none)

/-- `UserRepository.DeleteUser`: `DeleteOne` on `{_id: id}` — removes at most
one matching document and never reports a missing id as an error. -/
def repoDeleteUser (st : Store) (id : String) : Store × Option StoreError :=
  ({ st with docs := st.docs.eraseP (fun u => u.id == id) }, none)

/-! ## Use-case layer (`internal/core/usecase/user_usecase.go`) -/

/-- Errors returned by the use-case layer: `ErrEmailTaken`, the domain's
`ErrInvalidEmail`, `ErrUserNotFound`, and pass-through store errors. -/
inductive UseCaseError
  | emailTaken
  | invalidEmail
  | userNotFound
  | storeFailure (e : StoreError)
deriving DecidableEq

/-- `UserUseCase.Register`. Faithful to the Go control flow:
`existing, _ := u.users.GetUserByEmail(ctx, email)` discards the lookup error
and keeps only the first return value; the lookup uses the raw, un-normalized
`email` argument. On success the new store contents are returned. -/
def Register (st : Store) (genID : String) (now : Nat)
    (email password : String) (profile : Profile) :
    Except UseCaseError Store :=
  let existing := (repoGetUserByEmail st email).1
  match existing with
  | some _ => Except.error UseCaseError.emailTaken
  | none =>
    let hash := hashPassword password
    match NewUser genID now email hash profile with
    | Except.error _ => Except.error UseCaseError.invalidEmail
    | Except.ok user =>
      match repoCreateUser st user with
      | (_, some e) => Except.error (UseCaseError.storeFailure e)
      | (st2, none) => Except.ok st2

/-- `UserUseCase.GetUserByID` (use-case layer): any repository error is
replaced by `ErrUserNotFound`; otherwise the repository's result — which is
`nil` when the id is absent — is returned unchanged with a `nil` error. -/
def usecaseGetUserByID (st : Store) (id : String) :
    Except UseCaseError (Option User) :=
  match repoGetUserByID st id with
  | (_, some _) => Except.error UseCaseError.userNotFound
  | (user, none) => Except.ok user

/-- `UserUseCase.GetUserByEmail` (use-case layer): repository errors pass
through; a `nil` user is translated into `ErrUserNotFound`. -/
def usecaseGetUserByEmail (st : Store) (email : String) :
    Except UseCaseError (Option User) :=
  match repoGetUserByEmail st email with
  | (_, some e) => Except.error (UseCaseError.storeFailure e)
  | (none, none) => Except.error UseCaseError.userNotFound
  | (some u, none) => Except.ok (some u)

/-- `UserUseCase.DeleteUser` (use-case layer): pass-through to the
repository. -/
def usecaseDeleteUser (st : Store) (id : String) : Except UseCaseError Store :=
  match repoDeleteUser st id with
  | (_, some e) => Except.error (UseCaseError.storeFailure e)
  | (st2, none) => Except.ok st2

/-- `UserHandler.GetUserByID`'s response status: a use-case error maps to 500,
a `nil` user to 404 ("User not found"), otherwise 200 with the user. -/
def handlerGetUserByIDStatus (st : Store) (id : String) : Nat :=
  match usecaseGetUserByID st id with
  | Except.error _ => 500
  | Except.ok none => 404
  | Except.ok (some _) => 200

/-! ## Repository query building (`internal/repository/user_repository.go`) -/

/-- `ports.GetUsersOptions`. -/
structure GetUsersOptions where
  Page : Int
  PageSize : Int
  Fields : List String
  Search : String
  SortBy : String
  Order : String
deriving DecidableEq

/-- `UserRepository.setDefaultOptions`: a `nil` options pointer becomes the
all-default value; otherwise each invalid field is replaced by its default. -/
def setDefaultOptions : Option GetUsersOptions → GetUsersOptions
  | none =>
      { Page := 1, PageSize := 10, Fields := [], Search := "",
        SortBy := "created_at", Order := "asc" }
  | some opts =>
      let o1 := if opts.Page < 1 then { opts with Page := 1 } else opts
      let o2 := if o1.PageSize < 1 ∨ o1.PageSize > 100 then
                  { o1 with PageSize := 10 } else o1
      let o3 := if o2.SortBy = "" then { o2 with SortBy := "created_at" }
                else o2
      if o3.Order = "" then { o3 with Order := "asc" } else o3

/-- The `{$regex: pattern, $options: options}` document used by
`buildSearchFilter`. -/
structure RegexCond where
  pattern : String
  options : String
deriving DecidableEq

/-- The shape of the filters `buildSearchFilter` can produce: the empty
`bson.M{}` (match-all) or `{$or: [{field: regexFilter}, ...]}`. -/
inductive SearchFilter
  | matchAll
  | orFields (conds : List (String × RegexCond))
deriving DecidableEq

/-- `UserRepository.buildSearchFilter`: empty search term gives the empty
filter; otherwise an `$or` over `email`, `profile.first_name`,
`profile.last_name`, each with the raw search term as the regex pattern and
the case-insensitive option `"i"`. -/
def buildSearchFilter (searchTerm : String) : SearchFilter :=
  if searchTerm = "" then SearchFilter.matchAll
  else
    let regexFilter : RegexCond := { pattern := searchTerm, options := "i" }
    SearchFilter.orFields
      [("email", regexFilter),
       ("profile.first_name", regexFilter),
       ("profile.last_name", regexFilter)]

/-- `bson.M` key update: overwrite the value when the key is present,
otherwise add the pair (Go map assignment `m[k] = v`). -/
def bsonSet (m : List (String × Int)) (k : String) (v : Int) :
    List (String × Int) :=
  if m.any (fun kv => kv.1 == k) then
    m.map (fun kv => if kv.1 == k then (k, v) else kv)
  else m ++ [(k, v)]

/-- The keys of an embedded `bson.M`. -/
def bsonKeys (m : List (String × Int)) : List String := m.map (fun kv => kv.1)

/-- `UserRepository.buildProjection`: empty field list gives the empty
document; otherwise every listed field maps to `1`, and `_id` is set to `1`
as well when not already present. -/
def buildProjection (fields : List String) : List (String × Int) :=
  if fields.length = 0 then []
  else
    let projection := fields.foldl (fun m field => bsonSet m field 1) []
    if projection.any (fun kv => kv.1 == "_id") then projection
    else bsonSet projection "_id" 1

/-- `UserRepository.mapSortField`: logical name → MongoDB field path. -/
def mapSortField (sortBy : String) : String :=
  if sortBy = "first_name" then "profile.first_name"
  else if sortBy = "last_name" then "profile.last_name"
  else sortBy

/-- `UserRepository.buildSortOptions`: `bson.D{{mapSortField sortBy, dir}}`
with direction `1` unless the order is exactly `"desc"`, then `-1`. -/
def buildSortOptions (sortBy order : String) : List (String × Int) :=
  let sortField := mapSortField sortBy
  let sortOrder : Int := if order = "desc" then -1 else 1
  [(sortField, sortOrder)]

/-- The `options.FindOptions` fields set by `buildFindOptions`. `Projection`
is `none` when `SetProjection` is never called. -/
structure FindOptions where
  Skip : Int
  Limit : Int
  Projection : Option (List (String × Int))
  SortDoc : List (String × Int)
deriving DecidableEq

/-- `UserRepository.buildFindOptions`: skip `(Page-1)*PageSize`, limit
`PageSize`, the projection only when non-empty, and the sort document. -/
def buildFindOptions (opts : GetUsersOptions) : FindOptions :=
  let skip := (opts.Page - 1) * opts.PageSize
  let projection := buildProjection opts.Fields
  { Skip := skip
    Limit := opts.PageSize
    Projection := if projection.length > 0 then some projection else none
    SortDoc := buildSortOptions opts.SortBy opts.Order }

/-- `UserRepository.calculateTotalPages`:
`int(totalCount+int64(pageSize)-1) / pageSize` — Go's `/` on `int` is
truncated division, `Int.tdiv`. -/
def calculateTotalPages (totalCount : Int) (pageSize : Int) : Int :=
  Int.tdiv (totalCount + pageSize - 1) pageSize

/-! ## HTTP query-parameter parsing
(`internal/adapters/handler/http/user_handler.go`)

`gin`'s `c.Query(name)` yields `""` for a missing parameter, so each raw
parameter is a plain `String` and the missing case is the empty string. -/

/-- `UserHandler.GetUsers` page parsing: `page := 1`, replaced by the parsed
value only when parsing succeeds and the value is `> 0`. -/
def parsePage (p : String) : Int :=
  if p ≠ "" then
    match goAtoi p with
    | some parsed => if parsed > 0 then parsed else 1
    | none => 1
  else 1

/-- `UserHandler.GetUsers` page-size parsing: `pageSize := 10`, replaced only
when parsing succeeds and the value is in `(0, 100]`. -/
def parsePageSize (ps : String) : Int :=
  if ps ≠ "" then
    match goAtoi ps with
    | some parsed => if parsed > 0 ∧ parsed ≤ 100 then parsed else 10
    | none => 10
  else 10

/-- The five legal sort fields (`validSortFields` in the handler). -/
def validSortFields (s : String) : Bool :=
  s == "email" || s == "created_at" || s == "updated_at" ||
  s == "first_name" || s == "last_name"

/-- `ports`/handler `FilterParams`. -/
structure FilterParams where
  Fields : List String
  Search : String
  SortBy : String
  Order : String
deriving DecidableEq

/-- The validation error produced for an invalid sort field. -/
def invalidSortFieldMessage : String :=
  "Invalid sort field. Valid options: email, created_at, updated_at, first_name, last_name"

/-- `UserHandler.parseFilterParams`: starts from the defaults
(`created_at`/`asc`), splits and trims the comma-separated `fields`, trims
`search`, fails — the function's only error exit — when the trimmed sort
field is non-empty and not in `validSortFields`, and falls back to `"asc"`
for any order other than `"asc"`/`"desc"`. -/
def parseFilterParams (fieldsQ searchQ sortQ orderQ : String) :
    Except String FilterParams :=
  let fields := if fieldsQ ≠ "" then (goSplitComma fieldsQ).map goTrimSpace
                else []
  let search := goTrimSpace searchQ
  let sortBy := goTrimSpace sortQ
  if sortBy ≠ "" ∧ validSortFields sortBy = false then
    Except.error invalidSortFieldMessage
  else
    let sb := if sortBy ≠ "" then sortBy else "created_at"
    let ord0 := goToLower (goTrimSpace orderQ)
    let ord := if ord0 ≠ "" then
                 (if ord0 ≠ "asc" ∧ ord0 ≠ "desc" then "asc" else ord0)
               else "asc"
    Except.ok { Fields := fields, Search := search, SortBy := sb, Order := ord }

/-! ## Semantics of the search filter on stored documents

The three field paths used by `buildSearchFilter` resolved against a stored
user document. A `$regex` condition whose pattern is free of regex
metacharacters (all example patterns in the claims are alphabetic), with
`$options: "i"`, holds iff the pattern occurs in the field value ignoring
ASCII case; without the `i` option it is plain substring occurrence. -/

/-- Resolve the field paths mentioned by the filter builder on a document. -/
def fieldValue (u : User) (f : String) : Option String :=
  if f = "email" then some u.email
  else if f = "profile.first_name" then some u.profile.first_name
  else if f = "profile.last_name" then some u.profile.last_name
  else none

/-- One `{field: {$regex: pat, $options: o}}` condition on a document. -/
def condMatches (u : User) (cond : String × RegexCond) : Bool :=
  match fieldValue u cond.1 with
  | none => false
  | some v =>
      if cond.2.options = "i" then ciContains cond.2.pattern v
      else hasSub cond.2.pattern.data v.data

/-- Whether a filter produced by `buildSearchFilter` matches a document. -/
def filterMatches (f : SearchFilter) (u : User) : Bool :=
  match f with
  | SearchFilter.matchAll => true
  | SearchFilter.orFields conds => conds.any (condMatches u)

/-! ## Concrete fixtures used by the scenario theorems -/

/-- An all-empty address. -/
def emptyAddress : Address :=
  { street := "", city := "", state := "", country := "", zip_code := "" }

/-- Profile of the user named John Doe. -/
def johnProfile : Profile :=
  { first_name := "John", last_name := "Doe", address := emptyAddress,
    phone := "", birthdate := "", nin := "" }

/-- User whose first name is `"John"`. -/
def johnUser : User :=
  { id := "u-john", email := "doe@x.com", passwordHash := "h1",
    profile := johnProfile, createdAt := 0, updatedAt := 0 }

/-- User whose email is `"joe@x.com"`. -/
def joeUser : User :=
  { id := "u-joe", email := "joe@x.com", passwordHash := "h2",
    profile := { first_name := "Mary", last_name := "Major",
                 address := emptyAddress, phone := "", birthdate := "",
                 nin := "" },
    createdAt := 0, updatedAt := 0 }

/-- User with email `"alice@x.com"`, first name `"Alice"`, last name
`"Smith"`. -/
def aliceUser : User :=
  { id := "u-alice", email := "alice@x.com", passwordHash := "h3",
    profile := { first_name := "Alice", last_name := "Smith",
                 address := emptyAddress, phone := "", birthdate := "",
                 nin := "" },
    createdAt := 0, updatedAt := 0 }

/-- The document stored by a first registration with raw email
`"A@Example.com "` (trimmed and lowercased by `NewUser`). -/
def storedUser : User :=
  { id := "id1", email := "a@example.com", passwordHash := hashPassword "pw",
    profile := johnProfile, createdAt := 0, updatedAt := 0 }

/-! # Theorems -/

/-- C3: for every `pageSize` in `[1,100]` and every `totalCount ≥ 0`, the
computed `totalPages` equals `ceil(totalCount / pageSize)` (computed as the
floor of `(totalCount + pageSize − 1) / pageSize`); in particular
`totalCount = 0` yields `totalPages = 0`. -/
theorem c3_totalPages_is_ceil (pageSize totalCount : Int)
    (hp1 : 1 ≤ pageSize) (hp2 : pageSize ≤ 100) (ht : 0 ≤ totalCount) :
    calculateTotalPages totalCount pageSize =
      ⌈(totalCount : ℚ) / (pageSize : ℚ)⌉ ∧
    (totalCount = 0 → calculateTotalPages totalCount pageSize = 0) := by
  have hp0 : (0 : Int) < pageSize := by omega
  have hnum : 0 ≤ totalCount + pageSize - 1 := by omega
  have htdiv : calculateTotalPages totalCount pageSize =
      (totalCount + pageSize - 1) / pageSize := by
    unfold calculateTotalPages
    exact Int.tdiv_eq_ediv hnum (by omega)
  set z : Int := (totalCount + pageSize - 1) / pageSize with hz
  have hmod := Int.ediv_add_emod (totalCount + pageSize - 1) pageSize
  have hr0 : 0 ≤ (totalCount + pageSize - 1) % pageSize :=
    Int.emod_nonneg _ (by omega)
  have hrp : (totalCount + pageSize - 1) % pageSize < pageSize :=
    Int.emod_lt_of_pos _ hp0
  have hle : totalCount ≤ z * pageSize := by nlinarith [hmod]
  have hlt : (z - 1) * pageSize < totalCount := by nlinarith [hmod]
  have hpq : (0 : ℚ) < (pageSize : ℚ) := by exact_mod_cast hp0
  have hceil : ⌈(totalCount : ℚ) / (pageSize : ℚ)⌉ = z := by
    rw [Int.ceil_eq_iff]
    constructor
    · rw [lt_div_iff₀ hpq]
      have h1 : ((z : ℚ) - 1) * (pageSize : ℚ) < (totalCount : ℚ) := by
        exact_mod_cast hlt
      exact h1
    · rw [div_le_iff₀ hpq]
      exact_mod_cast hle
  refine ⟨by rw [htdiv, hceil], ?_⟩
  intro h0
  rw [htdiv, hz, h0]
  exact Int.ediv_eq_zero_of_lt (by omega) (by omega)

/-- Witness for C3 at `pageSize = 5`, `totalCount = 12`
(12 records across pages of 5 give 3 pages). -/
theorem c3_totalPages_is_ceil_witness :
    (1 : Int) ≤ 5 ∧ (5 : Int) ≤ 100 ∧ (0 : Int) ≤ 12 ∧
    (calculateTotalPages 12 5 = ⌈(12 : ℚ) / (5 : ℚ)⌉ ∧
     ((12 : Int) = 0 → calculateTotalPages 12 5 = 0)) :=
  ⟨by norm_num, by norm_num, by norm_num,
   c3_totalPages_is_ceil 5 12 (by norm_num) (by norm_num) (by norm_num)⟩

/-- C7: the sort builder maps `first_name` to `profile.first_name` and
`last_name` to `profile.last_name`, passes every other field name through
unchanged, and maps order `asc` to direction `1` and `desc` to `-1`. -/
theorem c7_sort_mapping :
    mapSortField "first_name" = "profile.first_name" ∧
    mapSortField "last_name" = "profile.last_name" ∧
    mapSortField "email" = "email" ∧
    mapSortField "created_at" = "created_at" ∧
    mapSortField "updated_at" = "updated_at" ∧
    (∀ s : String, s ≠ "first_name" → s ≠ "last_name" →
      mapSortField s = s) ∧
    (∀ s : String, buildSortOptions s "asc" = [(mapSortField s, 1)]) ∧
    (∀ s : String, buildSortOptions s "desc" = [(mapSortField s, -1)]) := by
  refine ⟨by decide, by decide, by decide, by decide, by decide, ?_, ?_, ?_⟩
  · intro s h1 h2
    unfold mapSortField
    rw [if_neg h1, if_neg h2]
  · intro s
    unfold buildSortOptions
    rw [if_neg (by decide : ¬("asc" : String) = "desc")]
  · intro s
    unfold buildSortOptions
    rw [if_pos rfl]

/-- C4: for every `page ≥ 1` the skip passed to the store query is
`(page − 1) × pageSize` and the limit is `pageSize`; and every raw `page`
input that is missing (empty), non-numeric, or parses to a value `< 1` is
normalized to `1` by the handler's parser. -/
theorem c4_skip_limit_and_page_default :
    (∀ opts : GetUsersOptions, 1 ≤ opts.Page →
      (buildFindOptions opts).Skip = (opts.Page - 1) * opts.PageSize ∧
      (buildFindOptions opts).Limit = opts.PageSize) ∧
    (∀ p : String,
      p = "" ∨ goAtoi p = none ∨ (∃ v, goAtoi p = some v ∧ v < 1) →
      parsePage p = 1) := by
  constructor
  · intro opts _
    exact ⟨rfl, rfl⟩
  · intro p hp
    rcases hp with rfl | hnone | ⟨v, hv, hlt⟩
    · rfl
    · by_cases hpe : p = ""
      · subst hpe; rfl
      · unfold parsePage
        rw [if_pos hpe, hnone]
    · by_cases hpe : p = ""
      · subst hpe; rfl
      · unfold parsePage
        rw [if_pos hpe, hv]
        show (if v > 0 then v else 1) = 1
        rw [if_neg (by omega)]

/-- Witness for C4 at `page = 2`, `pageSize = 5` (skip 5, limit 5) and at the
raw page input `"0"` (parses below 1, normalized to page 1). -/
theorem c4_skip_limit_and_page_default_witness :
    ((1 : Int) ≤ 2 ∧
     ((buildFindOptions
         { Page := 2, PageSize := 5, Fields := [], Search := "",
           SortBy := "created_at", Order := "asc" }).Skip = (2 - 1) * 5 ∧
      (buildFindOptions
         { Page := 2, PageSize := 5, Fields := [], Search := "",
           SortBy := "created_at", Order := "asc" }).Limit = 5)) ∧
    (("0" = "" ∨ goAtoi "0" = none ∨
        (∃ v, goAtoi "0" = some v ∧ v < 1)) ∧
     parsePage "0" = 1) :=
  ⟨⟨by norm_num,
    c4_skip_limit_and_page_default.1
      { Page := 2, PageSize := 5, Fields := [], Search := "",
        SortBy := "created_at", Order := "asc" } (by norm_num)⟩,
   ⟨Or.inr (Or.inr ⟨0, by decide, by decide⟩),
    c4_skip_limit_and_page_default.2 "0"
      (Or.inr (Or.inr ⟨0, by decide, by decide⟩))⟩⟩

/-- C5: the empty search term builds the match-all filter (which matches
every document); every non-empty search term builds an `$or` over exactly
`email`, `profile.first_name`, `profile.last_name`, each a case-insensitive
regex condition whose pattern is the unescaped search term itself; and the
search `"Jo"` matches a user with first name `"John"` and a user with email
`"joe@x.com"` but not the user `alice@x.com`/`Alice`/`Smith`. -/
theorem c5_search_filter :
    buildSearchFilter "" = SearchFilter.matchAll ∧
    (∀ u : User, filterMatches (buildSearchFilter "") u = true) ∧
    (∀ s : String, s ≠ "" →
      buildSearchFilter s = SearchFilter.orFields
        [("email", { pattern := s, options := "i" }),
         ("profile.first_name", { pattern := s, options := "i" }),
         ("profile.last_name", { pattern := s, options := "i" })]) ∧
    filterMatches (buildSearchFilter "Jo") johnUser = true ∧
    filterMatches (buildSearchFilter "Jo") joeUser = true ∧
    filterMatches (buildSearchFilter "Jo") aliceUser = false := by
  refine ⟨by decide, ?_, ?_, by decide, by decide, by decide⟩
  · intro u
    rfl
  · intro s hs
    unfold buildSearchFilter
    rw [if_neg hs]

/-- Witness for C5 at the search term `"Jo"`. -/
theorem c5_search_filter_witness :
    ("Jo" : String) ≠ "" ∧
    buildSearchFilter "Jo" = SearchFilter.orFields
      [("email", { pattern := "Jo", options := "i" }),
       ("profile.first_name", { pattern := "Jo", options := "i" }),
       ("profile.last_name", { pattern := "Jo", options := "i" })] :=
  ⟨by decide, c5_search_filter.2.2.1 "Jo" (by decide)⟩

/-- C6: a trimmed non-empty `sortBy` outside
`{email, created_at, updated_at, first_name, last_name}` makes parsing fail
with the validation error naming the five valid options; this is the only
error exit of the filter parser; an empty (after trimming) `sortBy` defaults
to `created_at` without failing. -/
theorem c6_sortBy_validation :
    (∀ fieldsQ searchQ sortQ orderQ : String,
      goTrimSpace sortQ ≠ "" → validSortFields (goTrimSpace sortQ) = false →
      parseFilterParams fieldsQ searchQ sortQ orderQ =
        Except.error invalidSortFieldMessage) ∧
    (hasSub "email".data invalidSortFieldMessage.data = true ∧
     hasSub "created_at".data invalidSortFieldMessage.data = true ∧
     hasSub "updated_at".data invalidSortFieldMessage.data = true ∧
     hasSub "first_name".data invalidSortFieldMessage.data = true ∧
     hasSub "last_name".data invalidSortFieldMessage.data = true) ∧
    (∀ fieldsQ searchQ sortQ orderQ e,
      parseFilterParams fieldsQ searchQ sortQ orderQ = Except.error e →
      goTrimSpace sortQ ≠ "" ∧ validSortFields (goTrimSpace sortQ) = false ∧
      e = invalidSortFieldMessage) ∧
    (∀ fieldsQ searchQ sortQ orderQ : String, goTrimSpace sortQ = "" →
      ∃ params, parseFilterParams fieldsQ searchQ sortQ orderQ =
        Except.ok params ∧ params.SortBy = "created_at") := by
  refine ⟨?_, by decide, ?_, ?_⟩
  · intro fieldsQ searchQ sortQ orderQ h1 h2
    unfold parseFilterParams
    rw [if_pos ⟨h1, h2⟩]
  · intro fieldsQ searchQ sortQ orderQ e heq
    unfold parseFilterParams at heq
    by_cases hc : goTrimSpace sortQ ≠ "" ∧
        validSortFields (goTrimSpace sortQ) = false
    · rw [if_pos hc] at heq
      injection heq with h
      exact ⟨hc.1, hc.2, h.symm⟩
    · rw [if_neg hc] at heq
      exact Except.noConfusion heq
  · intro fieldsQ searchQ sortQ orderQ h0
    unfold parseFilterParams
    rw [if_neg (by simp [h0])]
    refine ⟨_, rfl, ?_⟩
    simp [h0]

/-- Witness for C6 at the invalid sort field `"bogus"` and at the empty sort
field. -/
theorem c6_sortBy_validation_witness :
    (goTrimSpace "bogus" ≠ "" ∧ validSortFields (goTrimSpace "bogus") = false ∧
     parseFilterParams "" "" "bogus" "" =
       Except.error invalidSortFieldMessage) ∧
    (goTrimSpace "" = "" ∧
     ∃ params, parseFilterParams "" "" "" "" = Except.ok params ∧
       params.SortBy = "created_at") :=
  ⟨⟨by decide, by decide,
    c6_sortBy_validation.1 "" "" "bogus" "" (by decide) (by decide)⟩,
   ⟨by decide, c6_sortBy_validation.2.2.2 "" "" "" "" (by decide)⟩⟩

/-- Setting a key keeps the existing keys and adds at most `k`. -/
theorem mem_bsonKeys_bsonSet (m : List (String × Int)) (k : String) (v : Int)
    (k' : String) :
    k' ∈ bsonKeys (bsonSet m k v) ↔ k' ∈ bsonKeys m ∨ k' = k := by
  unfold bsonSet bsonKeys
  by_cases h : m.any (fun kv => kv.1 == k)
  · rw [if_pos h, List.map_map]
    have hkeys : ((fun kv => kv.1) ∘
        fun kv : String × Int => if kv.1 == k then (k, v) else kv) =
        fun kv : String × Int => kv.1 := by
      funext kv
      by_cases hkk : kv.1 == k
      · simp only [Function.comp_apply, if_pos hkk]
        exact (eq_of_beq hkk).symm
      · simp only [Function.comp_apply, if_neg hkk]
    rw [hkeys]
    constructor
    · exact Or.inl
    · rintro (hm | rfl)
      · exact hm
      · rw [List.any_eq_true] at h
        obtain ⟨kv, hkv, hk⟩ := h
        rw [List.mem_map]
        exact ⟨kv, hkv, eq_of_beq hk⟩
  · rw [if_neg h, List.map_append]
    simp [List.mem_append]

/-- Every key accumulated by the projection fold comes from the seed map or
from the field list, and conversely. -/
theorem mem_bsonKeys_projection_foldl (fields : List String)
    (m : List (String × Int)) (k : String) :
    k ∈ bsonKeys (fields.foldl (fun acc f => bsonSet acc f 1) m) ↔
      k ∈ bsonKeys m ∨ k ∈ fields := by
  induction fields generalizing m with
  | nil => simp
  | cons hd tl ih =>
    rw [List.foldl_cons, ih, mem_bsonKeys_bsonSet, List.mem_cons]
    tauto

/-- Setting value `1` preserves the all-values-are-1 invariant. -/
theorem bsonSet_one_values (m : List (String × Int)) (k : String)
    (h : ∀ kv ∈ m, kv.2 = 1) : ∀ kv ∈ bsonSet m k 1, kv.2 = 1 := by
  unfold bsonSet
  by_cases hc : m.any (fun kv => kv.1 == k)
  · rw [if_pos hc]
    intro kv hkv
    rw [List.mem_map] at hkv
    obtain ⟨kv', hkv', rfl⟩ := hkv
    by_cases hkk : kv'.1 == k
    · rw [if_pos hkk]
    · rw [if_neg hkk]
      exact h kv' hkv'
  · rw [if_neg hc]
    intro kv hkv
    rcases List.mem_append.mp hkv with hm | hs
    · exact h kv hm
    · rw [List.mem_singleton] at hs
      rw [hs]

/-- The projection fold over any field list keeps every value `1`. -/
theorem projection_foldl_one_values (fields : List String)
    (m : List (String × Int)) (h : ∀ kv ∈ m, kv.2 = 1) :
    ∀ kv ∈ fields.foldl (fun acc f => bsonSet acc f 1) m, kv.2 = 1 := by
  induction fields generalizing m with
  | nil => exact h
  | cons hd tl ih =>
    rw [List.foldl_cons]
    exact ih (bsonSet m hd 1) (bsonSet_one_values m hd h)

/-- C8: a non-empty fields list produces an inclusion projection whose keys
are exactly the listed fields plus `_id` (added when not already present),
with every value `1`; an empty fields list leaves the find options without
any projection; and `fields = [email]` yields the inclusion set
`{email, _id}`. -/
theorem c8_projection_inclusion :
    (∀ fields : List String, fields ≠ [] →
      (∀ k, k ∈ bsonKeys (buildProjection fields) ↔
          k ∈ fields ∨ k = "_id") ∧
      (∀ kv ∈ buildProjection fields, kv.2 = 1) ∧
      "_id" ∈ bsonKeys (buildProjection fields)) ∧
    (∀ opts : GetUsersOptions, opts.Fields = [] →
      (buildFindOptions opts).Projection = none) ∧
    buildProjection ["email"] = [("email", 1), ("_id", 1)] := by
  refine ⟨?_, ?_, by decide⟩
  · intro fields hne
    have hlen : ¬fields.length = 0 := by
      simpa [List.length_eq_zero] using hne
    have hproj : buildProjection fields =
        (let projection := fields.foldl (fun m field => bsonSet m field 1) []
         if projection.any (fun kv => kv.1 == "_id") then projection
         else bsonSet projection "_id" 1) := by
      unfold buildProjection
      rw [if_neg hlen]
    set projection := fields.foldl (fun m field => bsonSet m field 1) []
      with hpdef
    have hkeys : ∀ k, k ∈ bsonKeys projection ↔ k ∈ fields := by
      intro k
      rw [hpdef, mem_bsonKeys_projection_foldl]
      simp [bsonKeys]
    have hvals : ∀ kv ∈ projection, kv.2 = 1 :=
      projection_foldl_one_values fields [] (by simp)
    by_cases hid : projection.any (fun kv => kv.1 == "_id")
    · have hb : buildProjection fields = projection := by
        rw [hproj]; exact if_pos hid
      have hidmem : "_id" ∈ bsonKeys projection := by
        rw [List.any_eq_true] at hid
        obtain ⟨kv, hkv, hk⟩ := hid
        rw [bsonKeys, List.mem_map]
        exact ⟨kv, hkv, eq_of_beq hk⟩
      refine ⟨?_, ?_, ?_⟩
      · intro k
        rw [hb, hkeys]
        constructor
        · exact Or.inl
        · rintro (hf | rfl)
          · exact hf
          · rw [← hkeys]; exact hidmem
      · rw [hb]; exact hvals
      · rw [hb]; exact hidmem
    · have hb : buildProjection fields = bsonSet projection "_id" 1 := by
        rw [hproj]; exact if_neg hid
      refine ⟨?_, ?_, ?_⟩
      · intro k
        rw [hb, mem_bsonKeys_bsonSet, hkeys]
      · rw [hb]
        exact bsonSet_one_values projection "_id" hvals
      · rw [hb, mem_bsonKeys_bsonSet]
        exact Or.inr rfl
  · intro opts hF
    unfold buildFindOptions
    simp [buildProjection, hF]

/-- Witness for C8 at `fields = [email]`: keys are `email` and `_id`, all
values `1`, and `_id` is present. -/
theorem c8_projection_inclusion_witness :
    (["email"] : List String) ≠ [] ∧
    ((∀ k, k ∈ bsonKeys (buildProjection ["email"]) ↔
        k ∈ ["email"] ∨ k = "_id") ∧
     (∀ kv ∈ buildProjection ["email"], kv.2 = 1) ∧
     "_id" ∈ bsonKeys (buildProjection ["email"])) :=
  ⟨by decide, c8_projection_inclusion.1 ["email"] (by decide)⟩

/-- After erasing the first document with a given id from a collection whose
ids are pairwise distinct, no document with that id remains. -/
theorem no_id_after_eraseP (docs : List User) (id : String)
    (h : (docs.map User.id).Nodup) :
    ∀ u ∈ docs.eraseP (fun u => u.id == id), u.id ≠ id := by
  induction docs with
  | nil => simp
  | cons d tl ih =>
    rw [List.map_cons, List.nodup_cons] at h
    by_cases hd : d.id == id
    · have he : List.eraseP (fun u => u.id == id) (d :: tl) = tl := by
        simp [List.eraseP_cons, hd]
      rw [he]
      intro u hu hui
      apply h.1
      rw [List.mem_map]
      refine ⟨u, hu, ?_⟩
      rw [hui]
      exact (eq_of_beq hd).symm
    · have he : List.eraseP (fun u => u.id == id) (d :: tl) =
          d :: List.eraseP (fun u => u.id == id) tl := by
        simp [List.eraseP_cons, hd]
      rw [he]
      intro u hu
      rcases List.mem_cons.mp hu with rfl | hu'
      · intro hui
        exact hd (by rw [hui]; exact beq_self_eq_true id)
      · exact ih h.2 u hu'

/-- C9: deleting the same id twice at the store layer: the first call returns
no error, afterwards (for a collection with pairwise-distinct ids, as
enforced by the `_id` key) no document with the id remains, and the second
call — the id now absent — returns no error either; the use-case delete
passes the result through unchanged. -/
theorem c9_delete_idempotent (st : Store) (id : String)
    (h : (st.docs.map User.id).Nodup) :
    (repoDeleteUser st id).2 = none ∧
    (repoDeleteUser (repoDeleteUser st id).1 id).2 = none ∧
    (∀ u ∈ (repoDeleteUser st id).1.docs, u.id ≠ id) ∧
    usecaseDeleteUser st id = Except.ok (repoDeleteUser st id).1 := by
  refine ⟨rfl, rfl, ?_, rfl⟩
  exact no_id_after_eraseP st.docs id h

/-- Witness for C9 on a two-user store with distinct ids, deleting
`"u-john"`. -/
theorem c9_delete_idempotent_witness :
    (([johnUser, joeUser].map User.id).Nodup) ∧
    ((repoDeleteUser ⟨[johnUser, joeUser], false⟩ "u-john").2 = none ∧
     (repoDeleteUser
        (repoDeleteUser ⟨[johnUser, joeUser], false⟩ "u-john").1
        "u-john").2 = none ∧
     (∀ u ∈ (repoDeleteUser ⟨[johnUser, joeUser], false⟩ "u-john").1.docs,
        u.id ≠ "u-john") ∧
     usecaseDeleteUser ⟨[johnUser, joeUser], false⟩ "u-john" =
       Except.ok (repoDeleteUser ⟨[johnUser, joeUser], false⟩ "u-john").1) :=
  ⟨by decide,
   c9_delete_idempotent ⟨[johnUser, joeUser], false⟩ "u-john" (by decide)⟩

/-- C1 (code bug): the first registration with raw email `"A@Example.com "`
does store the trimmed, lowercased `"a@example.com"`; but a second `Register`
with the same email in a different casing — even with the identical raw
input string — does not fail with `EmailTaken`: the uniqueness pre-check
looks the raw input up against the stored normalized email, misses, and
registration proceeds to the insert, which the unique email index rejects
with a duplicate-key store error. Only the already-normalized raw input
`"a@example.com"` produces `EmailTaken`. -/
theorem c1_register_precheck_misses_recased_email :
    Register ⟨[], false⟩ "id1" 0 "A@Example.com " "pw" johnProfile =
      Except.ok ⟨[storedUser], false⟩ ∧
    Register ⟨[storedUser], false⟩ "id2" 1 "A@EXAMPLE.COM" "pw2" johnProfile =
      Except.error (UseCaseError.storeFailure StoreError.duplicateKey) ∧
    Register ⟨[storedUser], false⟩ "id2" 1 "A@Example.com " "pw2" johnProfile =
      Except.error (UseCaseError.storeFailure StoreError.duplicateKey) ∧
    Register ⟨[storedUser], false⟩ "id2" 1 "A@EXAMPLE.COM" "pw2" johnProfile ≠
      Except.error UseCaseError.emailTaken ∧
    Register ⟨[storedUser], false⟩ "id2" 1 "a@example.com" "pw2" johnProfile =
      Except.error UseCaseError.emailTaken := by
  refine ⟨rfl, rfl, rfl, ?_, rfl⟩
  intro h
  exact UseCaseError.noConfusion (Except.error.inj h)

/-- C2 (code bug): for an id with no matching stored user the store-layer
lookup returns absence with no error, but the use-case `GetUserByID` passes
that absence through as a `nil` user with a `nil` error rather than
translating it into `ErrUserNotFound`; the 404 is produced only by the HTTP
handler's `nil` check, and the use-case instead turns a store *error* into
`ErrUserNotFound`. -/
theorem c2_getUserByID_absence_not_translated :
    repoGetUserByID ⟨[], false⟩ "u1" = (none, none) ∧
    usecaseGetUserByID ⟨[], false⟩ "u1" = Except.ok none ∧
    handlerGetUserByIDStatus ⟨[], false⟩ "u1" = 404 ∧
    usecaseGetUserByID ⟨[], true⟩ "u1" =
      Except.error UseCaseError.userNotFound := by
  exact ⟨rfl, rfl, rfl, rfl⟩

/-- C10: when the email-uniqueness pre-check lookup inside `Register` fails
with a store error, the error is discarded: registration continues exactly as
if no user with that email exists — the password is hashed, the email
validated, and the insert attempted — and the lookup's connectivity error is
never surfaced to the caller. -/
theorem c10_register_discards_lookup_error (st : Store)
    (hfail : st.failLookup = true) (genID : String) (now : Nat)
    (email password : String) (profile : Profile) :
    Register st genID now email password profile =
      (match NewUser genID now email (hashPassword password) profile with
       | Except.error _ => Except.error UseCaseError.invalidEmail
       | Except.ok user =>
         match repoCreateUser st user with
         | (_, some e) => Except.error (UseCaseError.storeFailure e)
         | (st2, none) => Except.ok st2) ∧
    Register st genID now email password profile ≠
      Except.error (UseCaseError.storeFailure StoreError.connection) := by
  have hlook : repoGetUserByEmail st email =
      (none, some StoreError.connection) := by
    unfold repoGetUserByEmail
    rw [if_pos hfail]
  have hreg : Register st genID now email password profile =
      (match NewUser genID now email (hashPassword password) profile with
       | Except.error _ => Except.error UseCaseError.invalidEmail
       | Except.ok user =>
         match repoCreateUser st user with
         | (_, some e) => Except.error (UseCaseError.storeFailure e)
         | (st2, none) => Except.ok st2) := by
    unfold Register
    rw [hlook]
  refine ⟨hreg, ?_⟩
  rw [hreg]
  cases hN : NewUser genID now email (hashPassword password) profile with
  | error e => simp
  | ok user =>
    simp only []
    unfold repoCreateUser
    by_cases hdup : st.docs.any (fun v => v.email == user.email)
    · rw [if_pos hdup]
      simp
    · rw [if_neg hdup]
      simp

/-- Witness for C10: a store whose lookup fails even though it already holds
`a@example.com`; registration skips the `EmailTaken` path and reaches the
insert, which reports the duplicate key. -/
theorem c10_register_discards_lookup_error_witness :
    (Store.mk [storedUser] true).failLookup = true ∧
    (Register ⟨[storedUser], true⟩ "id2" 1 "a@example.com" "pw2" johnProfile =
      (match NewUser "id2" 1 "a@example.com" (hashPassword "pw2")
          johnProfile with
       | Except.error _ => Except.error UseCaseError.invalidEmail
       | Except.ok user =>
         match repoCreateUser ⟨[storedUser], true⟩ user with
         | (_, some e) => Except.error (UseCaseError.storeFailure e)
         | (st2, none) => Except.ok st2) ∧
     Register ⟨[storedUser], true⟩ "id2" 1 "a@example.com" "pw2" johnProfile ≠
       Except.error (UseCaseError.storeFailure StoreError.connection)) :=
  ⟨rfl, c10_register_discards_lookup_error ⟨[storedUser], true⟩ rfl
    "id2" 1 "a@example.com" "pw2" johnProfile⟩

/-- Witness for C7 at the field name `"email"`: not one of the two mapped
names, and passed through unchanged in both directions. -/
theorem c7_sort_mapping_witness :
    ("email" ≠ "first_name" ∧ "email" ≠ "last_name" ∧
     mapSortField "email" = "email") ∧
    buildSortOptions "email" "asc" = [(mapSortField "email", 1)] ∧
    buildSortOptions "email" "desc" = [(mapSortField "email", -1)] :=
  ⟨⟨by decide, by decide,
    c7_sort_mapping.2.2.2.2.2.1 "email" (by decide) (by decide)⟩,
   c7_sort_mapping.2.2.2.2.2.2.1 "email",
   c7_sort_mapping.2.2.2.2.2.2.2 "email"⟩

end UserManager
